import Mathlib

/-!
Verification of the Humming repository (song recognition by humming plus
football play/goal similarity search) against its natural-language
specification.

The repository's `src/` tree holds the React frontend
(`src/unnamed/part_001`, `src/unnamed/part_002`,
`src/frontend/vite-project/src/App.jsx`,
`src/frontend/vite-project/src/FootballAnalysis.jsx`) and the README
(`src/unnamed/part_000`).  The Django backend (DSP feature extraction,
cosine-similarity scoring, ranking, and the football corpus services) is
referenced by the README and called by the frontend but its code is not
under `src/`; definitions for that part are modelled from the
specification and carry a doc comment starting with
`Modelled from the spec:`.

Numeric conventions: JavaScript / Python floating-point values are
embedded as `ℚ` where only field arithmetic and comparisons occur
(confidence scores, similarity scores, embeddings), and as `ℝ` for the
cosine-similarity metric itself, whose definition involves square roots.
-/

namespace Humming

/-! ## Confidence bands (frontend, `src/unnamed/part_001` and `part_002`) -/

/-- From `src/unnamed/part_001`, `ResultCard` (line 350):
`song.confidence >= 0.5 ? "high" : song.confidence >= 0.3 ? "medium" : "low"`.
`src/unnamed/part_002` (lines 270-274) uses the same cut points to pick the
colour of the confidence figure. -/
def confidenceClass (confidence : ℚ) : String :=
  if confidence ≥ 1/2 then "high" else if confidence ≥ 3/10 then "medium" else "low"

/-- From `src/frontend/vite-project/src/FootballAnalysis.jsx`, `PlayCard`
(line 316) and `GoalCard` (line 356):
`play.similarity >= 0.9 ? "high" : play.similarity >= 0.7 ? "medium" : "low"`. -/
def similarityClass (similarity : ℚ) : String :=
  if similarity ≥ 9/10 then "high" else if similarity ≥ 7/10 then "medium" else "low"

/-- C1: a song match with confidence `c` is banded "high" iff `c ≥ 0.5`,
"medium" iff `0.3 ≤ c < 0.5`, and "low" iff `c < 0.3`; in particular
`c = 0.5` is "high" and `c = 0.4999` is "medium". -/
theorem song_confidence_bands (c : ℚ) :
    (confidenceClass c = "high" ↔ 1/2 ≤ c) ∧
    (confidenceClass c = "medium" ↔ 3/10 ≤ c ∧ c < 1/2) ∧
    (confidenceClass c = "low" ↔ c < 3/10) ∧
    confidenceClass (1/2) = "high" ∧
    confidenceClass (4999/10000) = "medium" := by
  refine ⟨?_, ?_, ?_, by norm_num [confidenceClass], by norm_num [confidenceClass]⟩ <;>
      unfold confidenceClass <;> split_ifs with h1 h2
  · exact iff_of_true rfl h1
  · exact iff_of_false (by decide) h1
  · exact iff_of_false (by decide) h1
  · exact iff_of_false (by decide) (by rintro ⟨-, hc⟩; linarith)
  · exact iff_of_true rfl ⟨h2, not_le.mp h1⟩
  · exact iff_of_false (by decide) (by rintro ⟨hc, -⟩; exact h2 hc)
  · exact iff_of_false (by decide) (by intro hc; linarith)
  · exact iff_of_false (by decide) (by intro hc; linarith)
  · exact iff_of_true rfl (not_le.mp h2)

/-- C2: a play or goal match with similarity `s` is banded "high" iff
`s ≥ 0.9`, "medium" iff `0.7 ≤ s < 0.9`, and "low" iff `s < 0.7`; in
particular `s = 0.9` is "high" and `s = 0.899` is "medium". -/
theorem play_similarity_bands (s : ℚ) :
    (similarityClass s = "high" ↔ 9/10 ≤ s) ∧
    (similarityClass s = "medium" ↔ 7/10 ≤ s ∧ s < 9/10) ∧
    (similarityClass s = "low" ↔ s < 7/10) ∧
    similarityClass (9/10) = "high" ∧
    similarityClass (899/1000) = "medium" := by
  refine ⟨?_, ?_, ?_, by norm_num [similarityClass], by norm_num [similarityClass]⟩ <;>
      unfold similarityClass <;> split_ifs with h1 h2
  · exact iff_of_true rfl h1
  · exact iff_of_false (by decide) h1
  · exact iff_of_false (by decide) h1
  · exact iff_of_false (by decide) (by rintro ⟨-, hc⟩; linarith)
  · exact iff_of_true rfl ⟨h2, not_le.mp h1⟩
  · exact iff_of_false (by decide) (by rintro ⟨hc, -⟩; exact h2 hc)
  · exact iff_of_false (by decide) (by intro hc; linarith)
  · exact iff_of_false (by decide) (by intro hc; linarith)
  · exact iff_of_true rfl (not_le.mp h2)

/-! ## Ranking & selection engine (backend, modelled from the spec) -/

/-- Modelled from the spec: the ranking order of §4.4 ("sort ScoredCandidates
by descending similarity; ties broken by ascending corpus index").  A scored
candidate is a corpus index paired with its similarity score; `rankLE a b`
holds when `a` may precede `b` in the ranked list. -/
def rankLE (a b : ℕ × ℚ) : Prop :=
  b.2 < a.2 ∨ (a.2 = b.2 ∧ a.1 ≤ b.1)

instance rankLE.decidableRel : DecidableRel rankLE := fun a b => by
  unfold rankLE; infer_instance

instance rankLE.isTotal : IsTotal (ℕ × ℚ) rankLE := by
  constructor
  intro a b
  unfold rankLE
  rcases lt_trichotomy a.2 b.2 with h | h | h
  · exact Or.inr (Or.inl h)
  · rcases Nat.le_total a.1 b.1 with h2 | h2
    · exact Or.inl (Or.inr ⟨h, h2⟩)
    · exact Or.inr (Or.inr ⟨h.symm, h2⟩)
  · exact Or.inl (Or.inl h)

instance rankLE.isTrans : IsTrans (ℕ × ℚ) rankLE := by
  constructor
  intro a b c hab hbc
  unfold rankLE at *
  rcases hab with h | ⟨he, hi⟩ <;> rcases hbc with h2 | ⟨he2, hi2⟩
  · exact Or.inl (lt_trans h2 h)
  · exact Or.inl (he2 ▸ h)
  · exact Or.inl (he ▸ h2)
  · exact Or.inr ⟨he.trans he2, hi.trans hi2⟩

/-- Modelled from the spec: §4.4 Ranking & Selection — sort the scored
candidates by `rankLE` (descending similarity, ties by ascending corpus
index) and truncate to the requested `k`. -/
def rankCandidates (scored : List (ℕ × ℚ)) (k : ℕ) : List (ℕ × ℚ) :=
  (List.insertionSort rankLE scored).take k

/-- Modelled from the spec: §4.3 — score a query vector against every corpus
vector, tagging each candidate with its corpus index (the similarity metric
itself is a parameter here; the real-valued cosine metric is analysed
separately as `cosineSim`). -/
def scoreCorpus (simFn : List ℚ → List ℚ → ℚ) (q : List ℚ) (corpus : List (List ℚ)) :
    List (ℕ × ℚ) :=
  corpus.enum.map fun p => (p.1, simFn q p.2)

lemma length_rankCandidates (scored : List (ℕ × ℚ)) (k : ℕ) :
    (rankCandidates scored k).length = min k scored.length := by
  unfold rankCandidates
  rw [List.length_take, (List.perm_insertionSort rankLE scored).length_eq]

lemma mem_rankCandidates {p : ℕ × ℚ} {scored : List (ℕ × ℚ)} {k : ℕ}
    (hp : p ∈ rankCandidates scored k) : p ∈ scored := by
  unfold rankCandidates at hp
  exact ((List.perm_insertionSort rankLE scored).mem_iff).mp
    ((List.take_sublist k _).mem hp)

/-- C5: the returned candidate list is sorted by descending similarity with
ties broken by ascending corpus index (`rankLE`), is the truncation to `k` of
a full sorted rearrangement of the scored candidates, and is a deterministic
function of the scored candidates and `k` (repeated identical queries yield
the same ordered list). -/
theorem ranking_contract (scored : List (ℕ × ℚ)) (k : ℕ) :
    List.Pairwise rankLE (rankCandidates scored k) ∧
    (List.insertionSort rankLE scored).Perm scored ∧
    rankCandidates scored k = (List.insertionSort rankLE scored).take k ∧
    ∀ scored2 k2, scored2 = scored → k2 = k →
      rankCandidates scored2 k2 = rankCandidates scored k := by
  refine ⟨?_, List.perm_insertionSort rankLE scored, rfl, ?_⟩
  · exact (List.sorted_insertionSort rankLE scored).sublist (List.take_sublist k _)
  · intro scored2 k2 h1 h2
    rw [h1, h2]

/-- Witness for C5 at a concrete tied input. -/
theorem ranking_contract_witness :
    List.Pairwise rankLE (rankCandidates [(0, (1 : ℚ)), (1, 1), (2, 2)] 2) ∧
    (List.insertionSort rankLE [(0, (1 : ℚ)), (1, 1), (2, 2)]).Perm
      [(0, (1 : ℚ)), (1, 1), (2, 2)] ∧
    rankCandidates [(0, (1 : ℚ)), (1, 1), (2, 2)] 2 =
      (List.insertionSort rankLE [(0, (1 : ℚ)), (1, 1), (2, 2)]).take 2 ∧
    rankCandidates [(0, (1 : ℚ)), (1, 1), (2, 2)] 2 =
      rankCandidates [(0, (1 : ℚ)), (1, 1), (2, 2)] 2 := by
  have h := ranking_contract [(0, (1 : ℚ)), (1, 1), (2, 2)] 2
  exact ⟨h.1, h.2.1, h.2.2.1, h.2.2.2 [(0, (1 : ℚ)), (1, 1), (2, 2)] 2 rfl rfl⟩

/-! ## Football similarity service (backend, modelled from the spec) -/

/-- Error payload of the football analyze endpoint (spec §6:
`{error, total_plays}`). -/
structure AnalyzeError where
  error : String
  total_plays : ℕ
deriving DecidableEq

/-- Success payload of the football analyze endpoint (spec §6: the query
record, the ranked similar plays, and `total_plays`).  Play records are
identified here by their corpus index; `similar` pairs each index with its
similarity score. -/
structure AnalyzeResponse where
  query_index : ℕ
  similar : List (ℕ × ℚ)
  total_plays : ℕ
deriving DecidableEq

/-- From `src/frontend/vite-project/src/FootballAnalysis.jsx` (line 516): the
hint rendered from an error response, "Valid play indices: 0 to
totalPlays - 1", as the inclusive range it names. -/
def validIndexHint (total_plays : ℕ) : ℕ × ℕ :=
  (0, total_plays - 1)

instance exceptDecEq {ε α : Type} [DecidableEq ε] [DecidableEq α] :
    DecidableEq (Except ε α) := fun a b =>
  match a, b with
  | Except.error e1, Except.error e2 => decidable_of_iff (e1 = e2) (by simp)
  | Except.error _, Except.ok _ => isFalse (by simp)
  | Except.ok _, Except.error _ => isFalse (by simp)
  | Except.ok a1, Except.ok a2 => decidable_of_iff (a1 = a2) (by simp)

/-- Modelled from the spec: §4.5(a) football search by play index (the Django
`football` app is not under `src/`).  Fails with `IndexOutOfRange` if the
index is outside `[0, totalPlays)`, reporting `total_plays`; otherwise uses
the play's precomputed embedding as the query vector, scores it against the
whole corpus, excludes the query's own record, and returns the ranked top-K
(§4.4). -/
def analyzePlay (embeddings : List (List ℚ)) (simFn : List ℚ → List ℚ → ℚ)
    (playId : ℤ) (topK : ℕ) : Except AnalyzeError AnalyzeResponse :=
  if playId < 0 ∨ (embeddings.length : ℤ) ≤ playId then
    Except.error { error := "IndexOutOfRange", total_plays := embeddings.length }
  else
    Except.ok
      { query_index := playId.toNat
        similar := rankCandidates
          ((scoreCorpus simFn (embeddings.getD playId.toNat []) embeddings).filter
            fun p => decide (p.1 ≠ playId.toNat)) topK
        total_plays := embeddings.length }

/-- C3: a play-index query fails with `IndexOutOfRange` exactly when the
index lies outside `[0, totalPlays)`: it is raised for `-1` and for
`totalPlays`, not raised for `0` or `totalPlays - 1`, and every error
response carries `total_plays`, from which the caller renders the valid
range `0` to `totalPlays - 1`. -/
theorem play_index_bounds (embeddings : List (List ℚ))
    (simFn : List ℚ → List ℚ → ℚ) (topK : ℕ) (hpos : 0 < embeddings.length) :
    (∀ playId : ℤ, (analyzePlay embeddings simFn playId topK).isOk = true ↔
      0 ≤ playId ∧ playId < (embeddings.length : ℤ)) ∧
    analyzePlay embeddings simFn (-1) topK =
      Except.error { error := "IndexOutOfRange", total_plays := embeddings.length } ∧
    analyzePlay embeddings simFn (embeddings.length : ℤ) topK =
      Except.error { error := "IndexOutOfRange", total_plays := embeddings.length } ∧
    (analyzePlay embeddings simFn 0 topK).isOk = true ∧
    (analyzePlay embeddings simFn ((embeddings.length : ℤ) - 1) topK).isOk = true ∧
    ∀ playId : ℤ, ∀ e, analyzePlay embeddings simFn playId topK = Except.error e →
      e.total_plays = embeddings.length ∧
      validIndexHint e.total_plays = (0, embeddings.length - 1) := by
  refine ⟨?_, ?_, ?_, ?_, ?_, ?_⟩
  · intro playId
    unfold analyzePlay
    split_ifs with h
    · exact iff_of_false (by simp [Except.isOk, Except.toBool]) (by omega)
    · exact iff_of_true rfl (by omega)
  · unfold analyzePlay
    rw [if_pos (Or.inl (by decide))]
  · unfold analyzePlay
    rw [if_pos (Or.inr le_rfl)]
  · unfold analyzePlay
    rw [if_neg (by omega)]
    rfl
  · unfold analyzePlay
    rw [if_neg (by omega)]
    rfl
  · intro playId e he
    unfold analyzePlay at he
    by_cases h : playId < 0 ∨ (embeddings.length : ℤ) ≤ playId
    · rw [if_pos h] at he
      injection he with h2
      subst h2
      exact ⟨rfl, rfl⟩
    · rw [if_neg h] at he
      exact absurd he (by simp)

/-- A simple executable similarity function (rational dot product) used to
instantiate the service theorems at concrete inputs. -/
def dotQ (a b : List ℚ) : ℚ :=
  (List.zipWith (· * ·) a b).sum

/-- Witness for C3: a three-play corpus, exercising both the error and the
success side of the bound. -/
theorem play_index_bounds_witness :
    0 < ([[(1 : ℚ)], [2], [3]] : List (List ℚ)).length ∧
    (∀ playId : ℤ,
      (analyzePlay [[(1 : ℚ)], [2], [3]] dotQ playId 2).isOk = true ↔
        0 ≤ playId ∧ playId < (([[(1 : ℚ)], [2], [3]] : List (List ℚ)).length : ℤ)) ∧
    analyzePlay [[(1 : ℚ)], [2], [3]] dotQ (-1) 2 =
      Except.error { error := "IndexOutOfRange", total_plays := 3 } ∧
    analyzePlay [[(1 : ℚ)], [2], [3]] dotQ (([[(1 : ℚ)], [2], [3]] : List (List ℚ)).length : ℤ) 2 =
      Except.error { error := "IndexOutOfRange", total_plays := 3 } ∧
    (analyzePlay [[(1 : ℚ)], [2], [3]] dotQ 0 2).isOk = true ∧
    (analyzePlay [[(1 : ℚ)], [2], [3]] dotQ ((([[(1 : ℚ)], [2], [3]] : List (List ℚ)).length : ℤ) - 1) 2).isOk = true ∧
    ∀ playId : ℤ, ∀ e, analyzePlay [[(1 : ℚ)], [2], [3]] dotQ playId 2 = Except.error e →
      e.total_plays = ([[(1 : ℚ)], [2], [3]] : List (List ℚ)).length ∧
      validIndexHint e.total_plays = (0, ([[(1 : ℚ)], [2], [3]] : List (List ℚ)).length - 1) := by
  have h := play_index_bounds [[(1 : ℚ)], [2], [3]] dotQ 2 (by decide)
  exact ⟨by decide, h.1, h.2.1, h.2.2.1, h.2.2.2.1, h.2.2.2.2.1, h.2.2.2.2.2⟩

/-- C6: for every valid play index, the similar-results list returned by the
index query never contains the query's own index. -/
theorem query_play_excluded (embeddings : List (List ℚ))
    (simFn : List ℚ → List ℚ → ℚ) (topK : ℕ) (i : ℕ)
    (hi : i < embeddings.length) (r : AnalyzeResponse)
    (hr : analyzePlay embeddings simFn (i : ℤ) topK = Except.ok r) :
    ∀ p ∈ r.similar, p.1 ≠ i := by
  unfold analyzePlay at hr
  rw [if_neg (by omega)] at hr
  injection hr with h2
  subst h2
  intro p hp
  have hmem := mem_rankCandidates hp
  have := (List.mem_filter.mp hmem).2
  simpa using this

/-- Witness for C6 at a concrete two-play corpus: the sole member of the
similar list for query index 0 has index 1, not 0. -/
theorem query_play_excluded_witness :
    ((1 : ℕ), (0 : ℚ)).1 ≠ 0 :=
  query_play_excluded [[(1 : ℚ)], [2]] (fun _ _ => 0) 1 0 (by decide)
    (AnalyzeResponse.mk 0 [(1, 0)] 2) (by decide) (1, 0) (by decide)

/-! ## Song search orchestrator (backend, modelled from the spec) -/

/-- Modelled from the spec: §4.2/§7 — the failure conditions of the two
extractors.  `modelUnavailable` is the AI extractor's distinct condition for
a missing model; `unprocessableAudio` covers empty / too-short / silent
input. -/
inductive ExtractError where
  | modelUnavailable
  | unprocessableAudio
deriving DecidableEq

/-- The song-search response payload (spec §6:
`{dsp: [...], ai: [...]}`, either list possibly empty).  Matches are
identified by corpus index paired with confidence. -/
structure SongResponse where
  dsp : List (ℕ × ℚ)
  ai : List (ℕ × ℚ)
deriving DecidableEq

/-- The method selector of the song path (spec §6: one of `dsp`, `ai`,
`both`). -/
inductive SearchMethod where
  | dsp
  | ai
  | both
deriving DecidableEq

/-- Modelled from the spec: §4.5/§7 — the ranked list one extraction method
contributes: a failed extraction (either condition) degrades to an empty
list instead of raising. -/
def methodRanking (simFn : List ℚ → List ℚ → ℚ) (corpus : List (List ℚ))
    (topN : ℕ) : Except ExtractError (List ℚ) → List (ℕ × ℚ)
  | Except.ok q => rankCandidates (scoreCorpus simFn q corpus) topN
  | Except.error _ => []

/-- Modelled from the spec: §4.5 song path of the query orchestrator (the
Django `humming` app is not under `src/`).  Each requested method runs its
own extractor against its own corpus and contributes its own independently
ranked top-K list; the two lists are never merged.  The orchestrator is a
total function — extractor failures are absorbed by `methodRanking`, so no
exception propagates to the caller.  `dspX` and `aiX` are the outcomes of
the two extractors on the request's audio. -/
def searchSongService (m : SearchMethod) (simFn : List ℚ → List ℚ → ℚ)
    (dspCorpus aiCorpus : List (List ℚ)) (topN : ℕ)
    (dspX aiX : Except ExtractError (List ℚ)) : SongResponse :=
  match m with
  | SearchMethod.dsp =>
      { dsp := methodRanking simFn dspCorpus topN dspX, ai := [] }
  | SearchMethod.ai =>
      { dsp := [], ai := methodRanking simFn aiCorpus topN aiX }
  | SearchMethod.both =>
      { dsp := methodRanking simFn dspCorpus topN dspX
        ai := methodRanking simFn aiCorpus topN aiX }

/-- C4: with method `both`, if the AI extractor fails with
`ModelUnavailable` then the response is exactly the DSP ranked list paired
with an empty AI list: the DSP list equals the ranked DSP scores (and the
DSP-only method's list), and it is non-empty when DSP extraction succeeded
against a non-empty corpus with positive K.  The orchestrator returns this
response as a plain value, so no exception reaches the caller. -/
theorem ai_model_unavailable_degrades (simFn : List ℚ → List ℚ → ℚ)
    (dspCorpus aiCorpus : List (List ℚ)) (topN : ℕ) (q : List ℚ)
    (hc : dspCorpus ≠ []) (hk : 0 < topN) :
    searchSongService SearchMethod.both simFn dspCorpus aiCorpus topN
        (Except.ok q) (Except.error ExtractError.modelUnavailable) =
      { dsp := rankCandidates (scoreCorpus simFn q dspCorpus) topN, ai := [] } ∧
    (searchSongService SearchMethod.both simFn dspCorpus aiCorpus topN
        (Except.ok q) (Except.error ExtractError.modelUnavailable)).dsp =
      (searchSongService SearchMethod.dsp simFn dspCorpus aiCorpus topN
        (Except.ok q) (Except.error ExtractError.modelUnavailable)).dsp ∧
    (searchSongService SearchMethod.both simFn dspCorpus aiCorpus topN
        (Except.ok q) (Except.error ExtractError.modelUnavailable)).dsp ≠ [] := by
  refine ⟨rfl, rfl, ?_⟩
  have hlen : (rankCandidates (scoreCorpus simFn q dspCorpus) topN).length =
      min topN dspCorpus.length := by
    rw [length_rankCandidates]
    unfold scoreCorpus
    rw [List.length_map, List.enum_length]
  intro hnil
  have h0 : (rankCandidates (scoreCorpus simFn q dspCorpus) topN).length = 0 := by
    simpa using congrArg List.length hnil
  rw [hlen] at h0
  have hcpos : 0 < dspCorpus.length := List.length_pos.mpr hc
  omega

/-- Witness for C4: AI model unavailable with method `both` over a two-song
DSP corpus. -/
theorem ai_model_unavailable_degrades_witness :
    ([[(1 : ℚ), 0], [0, 1]] : List (List ℚ)) ≠ [] ∧ 0 < 2 ∧
    (searchSongService SearchMethod.both (fun _ _ => 0) [[(1 : ℚ), 0], [0, 1]] [] 2
        (Except.ok [1, 0]) (Except.error ExtractError.modelUnavailable) =
      { dsp := rankCandidates (scoreCorpus (fun _ _ => 0) [1, 0] [[(1 : ℚ), 0], [0, 1]]) 2
        ai := [] } ∧
    (searchSongService SearchMethod.both (fun _ _ => 0) [[(1 : ℚ), 0], [0, 1]] [] 2
        (Except.ok [1, 0]) (Except.error ExtractError.modelUnavailable)).dsp =
      (searchSongService SearchMethod.dsp (fun _ _ => 0) [[(1 : ℚ), 0], [0, 1]] [] 2
        (Except.ok [1, 0]) (Except.error ExtractError.modelUnavailable)).dsp ∧
    (searchSongService SearchMethod.both (fun _ _ => 0) [[(1 : ℚ), 0], [0, 1]] [] 2
        (Except.ok [1, 0]) (Except.error ExtractError.modelUnavailable)).dsp ≠ []) :=
  ⟨by decide, by decide,
    ai_model_unavailable_degrades (fun _ _ => 0) [[(1 : ℚ), 0], [0, 1]] [] 2 [1, 0]
      (by decide) (by decide)⟩

/-! ## Cosine similarity metric (backend, modelled from the spec) -/

/-- Modelled from the spec: the dot product `q·c` of §4.3, over vectors
represented as lists of reals (the backend computes it with
scikit-learn, which is not under `src/`). -/
def dotR (a b : List ℝ) : ℝ :=
  (List.zipWith (· * ·) a b).sum

/-- Modelled from the spec: the Euclidean norm `‖q‖` of §4.3. -/
noncomputable def vecNorm (a : List ℝ) : ℝ :=
  Real.sqrt (dotR a a)

/-- Modelled from the spec: §4.3 — cosine similarity
`sim = (q·c) / (‖q‖·‖c‖)`, defined as 0 when either norm is zero. -/
noncomputable def cosineSim (a b : List ℝ) : ℝ :=
  if vecNorm a = 0 ∨ vecNorm b = 0 then 0 else dotR a b / (vecNorm a * vecNorm b)

lemma dotR_comm (a b : List ℝ) : dotR a b = dotR b a := by
  induction a generalizing b with
  | nil => cases b <;> simp [dotR]
  | cons x as ih =>
    cases b with
    | nil => simp [dotR]
    | cons y bs =>
      show x * y + dotR as bs = y * x + dotR bs as
      rw [mul_comm, ih]

lemma dotR_self_nonneg (a : List ℝ) : 0 ≤ dotR a a := by
  induction a with
  | nil => simp [dotR]
  | cons x as ih =>
    show 0 ≤ x * x + dotR as as
    exact add_nonneg (mul_self_nonneg x) ih

lemma dotR_self_pos (a : List ℝ) (ha : ∃ x ∈ a, x ≠ 0) : 0 < dotR a a := by
  induction a with
  | nil =>
    rcases ha with ⟨x, hx, -⟩
    simp at hx
  | cons y as ih =>
    show 0 < y * y + dotR as as
    rcases ha with ⟨x, hx, hxne⟩
    rcases List.mem_cons.mp hx with h | h
    · subst h
      exact add_pos_of_pos_of_nonneg (mul_self_pos.mpr hxne) (dotR_self_nonneg as)
    · exact add_pos_of_nonneg_of_pos (mul_self_nonneg y) (ih ⟨x, h, hxne⟩)

lemma dotR_eq_sum (a b : List ℝ) (h : a.length = b.length) :
    dotR a b = ∑ i ∈ Finset.range a.length, a.getD i 0 * b.getD i 0 := by
  induction a generalizing b with
  | nil => simp [dotR]
  | cons x as ih =>
    cases b with
    | nil => simp at h
    | cons y bs =>
      simp only [List.length_cons] at h
      have h2 : as.length = bs.length := by omega
      rw [List.length_cons, Finset.sum_range_succ']
      simp only [List.getD_cons_succ, List.getD_cons_zero]
      show x * y + dotR as bs = _
      rw [ih bs h2]
      ring

/-- Cauchy-Schwarz for `dotR` on equal-length vectors. -/
lemma dotR_sq_le (a b : List ℝ) (h : a.length = b.length) :
    dotR a b ^ 2 ≤ dotR a a * dotR b b := by
  rw [dotR_eq_sum a b h, dotR_eq_sum a a rfl, dotR_eq_sum b b rfl, ← h]
  have hcs := Finset.sum_mul_sq_le_sq_mul_sq (Finset.range a.length)
    (fun i => a.getD i 0) (fun i => b.getD i 0)
  simpa only [pow_two] using hcs

lemma vecNorm_nonneg (a : List ℝ) : 0 ≤ vecNorm a :=
  Real.sqrt_nonneg _

lemma vecNorm_mul_self (a : List ℝ) : vecNorm a * vecNorm a = dotR a a :=
  Real.mul_self_sqrt (dotR_self_nonneg a)

/-- C7: cosine similarity is symmetric and bounded — for equal-dimension
vector pairs `(a, b)`, `sim(a,b) = sim(b,a)` and `-1 ≤ sim(a,b) ≤ 1` — and
`sim(a,a) = 1` for every non-zero vector `a`. -/
theorem cosineSim_props (a b : List ℝ) (hab : a.length = b.length) :
    cosineSim a b = cosineSim b a ∧
    -1 ≤ cosineSim a b ∧ cosineSim a b ≤ 1 ∧
    ((∃ x ∈ a, x ≠ 0) → cosineSim a a = 1) := by
  refine ⟨?_, ?_, ?_, ?_⟩
  · unfold cosineSim
    by_cases h : vecNorm a = 0 ∨ vecNorm b = 0
    · rw [if_pos h, if_pos h.symm]
    · rw [if_neg h, if_neg fun hc => h hc.symm, dotR_comm, mul_comm]
  · unfold cosineSim
    by_cases h : vecNorm a = 0 ∨ vecNorm b = 0
    · rw [if_pos h]; norm_num
    · rw [if_neg h]
      push_neg at h
      have hA : 0 < vecNorm a := lt_of_le_of_ne (vecNorm_nonneg a) (Ne.symm h.1)
      have hB : 0 < vecNorm b := lt_of_le_of_ne (vecNorm_nonneg b) (Ne.symm h.2)
      have hN : 0 < vecNorm a * vecNorm b := mul_pos hA hB
      have hcs : dotR a b ^ 2 ≤ (vecNorm a * vecNorm b) ^ 2 := by
        calc dotR a b ^ 2 ≤ dotR a a * dotR b b := dotR_sq_le a b hab
          _ = (vecNorm a * vecNorm b) ^ 2 := by
              rw [← vecNorm_mul_self, ← vecNorm_mul_self]; ring
      rw [le_div_iff₀ hN]
      nlinarith [hcs, hN]
  · unfold cosineSim
    by_cases h : vecNorm a = 0 ∨ vecNorm b = 0
    · rw [if_pos h]; norm_num
    · rw [if_neg h]
      push_neg at h
      have hA : 0 < vecNorm a := lt_of_le_of_ne (vecNorm_nonneg a) (Ne.symm h.1)
      have hB : 0 < vecNorm b := lt_of_le_of_ne (vecNorm_nonneg b) (Ne.symm h.2)
      have hN : 0 < vecNorm a * vecNorm b := mul_pos hA hB
      have hcs : dotR a b ^ 2 ≤ (vecNorm a * vecNorm b) ^ 2 := by
        calc dotR a b ^ 2 ≤ dotR a a * dotR b b := dotR_sq_le a b hab
          _ = (vecNorm a * vecNorm b) ^ 2 := by
              rw [← vecNorm_mul_self, ← vecNorm_mul_self]; ring
      rw [div_le_one hN]
      nlinarith [hcs, hN]
  · intro ha
    have hpos : 0 < dotR a a := dotR_self_pos a ha
    have hn : vecNorm a ≠ 0 := by
      unfold vecNorm
      exact (Real.sqrt_pos.mpr hpos).ne'
    unfold cosineSim
    rw [if_neg (by push_neg; exact ⟨hn, hn⟩), vecNorm_mul_self]
    exact div_self hpos.ne'

/-- Witness for C7 at the concrete pair `[1, 0]`, `[0, 1]`. -/
theorem cosineSim_props_witness :
    ([1, 0] : List ℝ).length = ([0, 1] : List ℝ).length ∧
    cosineSim [1, 0] [0, 1] = cosineSim [0, 1] [1, 0] ∧
    -1 ≤ cosineSim [1, 0] [0, 1] ∧ cosineSim [1, 0] [0, 1] ≤ 1 ∧
    cosineSim [1, 0] [1, 0] = 1 := by
  have h := cosineSim_props [1, 0] [0, 1] rfl
  exact ⟨rfl, h.1, h.2.1, h.2.2.1, h.2.2.2 ⟨1, by simp⟩⟩

/-! ## DSP pitch histogram (backend, modelled from the spec) -/

/-- Modelled from the spec: §4.1 — the per-bin counts of the pitch
histogram (the librosa-based extractor is not under `src/`).  Window-level
pitch detection is abstracted: each short analysis window of the waveform
yields either a detected pitch bin (`some b`, `b` among the `n` pitch bins)
or no detectable pitch (`none`).  The `n` voiced-bin counts are followed by
the dedicated unvoiced bin, which counts the windows with no detectable
pitch instead of dropping them. -/
def histCounts (n : ℕ) (windows : List (Option (Fin n))) : List ℕ :=
  ((List.finRange n).map fun b => windows.countP fun w => decide (w = some b)) ++
    [windows.countP fun w => w.isNone]

/-- Modelled from the spec: §4.1 — the pitch histogram, normalized by the
total window count so that loudness and recording length do not bias
comparison. -/
def pitchHistogram (n : ℕ) (windows : List (Option (Fin n))) : List ℚ :=
  (histCounts n windows).map fun c : ℕ => (c : ℚ) / windows.length

lemma histCounts_sum (n : ℕ) (windows : List (Option (Fin n))) :
    (histCounts n windows).sum = windows.length := by
  unfold histCounts
  rw [List.sum_append, ← Fin.sum_univ_def]
  simp only [List.sum_cons, List.sum_nil, add_zero]
  induction windows with
  | nil => simp
  | cons w ws ih =>
    simp only [List.countP_cons, List.length_cons]
    rw [Finset.sum_add_distrib]
    have hone : (∑ b : Fin n, if decide (w = some b) = true then 1 else 0) +
        (if w.isNone = true then 1 else 0) = 1 := by
      cases w with
      | none => simp
      | some v => simp [Finset.sum_ite_eq]
    omega

lemma sum_map_div (l : List ℕ) (d : ℚ) :
    (l.map fun c : ℕ => (c : ℚ) / d).sum = ((l.sum : ℕ) : ℚ) / d := by
  induction l with
  | nil => simp
  | cons c cs ih =>
    simp only [List.map_cons, List.sum_cons, ih, Nat.cast_add]
    rw [add_div]

/-- C8: for every non-silent input (at least one analysis window), the
normalized pitch histogram sums to exactly 1, and its final bin is the
dedicated unvoiced bin carrying the mass of the silent / unvoiced windows,
so histogram mass is conserved regardless of input duration. -/
theorem pitch_histogram_mass (n : ℕ) (windows : List (Option (Fin n)))
    (hne : windows ≠ []) :
    (pitchHistogram n windows).sum = 1 ∧
    (pitchHistogram n windows).getLast? =
      some (((windows.countP fun w => w.isNone : ℕ) : ℚ) / windows.length) := by
  have hL : (0 : ℚ) < windows.length := by
    exact_mod_cast List.length_pos.mpr hne
  constructor
  · unfold pitchHistogram
    rw [sum_map_div, histCounts_sum]
    exact div_self hL.ne'
  · unfold pitchHistogram histCounts
    rw [List.map_append, List.map_singleton, List.getLast?_concat]

/-- Witness for C8: four windows over two pitch bins, one window unvoiced. -/
theorem pitch_histogram_mass_witness :
    ([some 0, none, some 1, some 0] : List (Option (Fin 2))) ≠ [] ∧
    (pitchHistogram 2 [some 0, none, some 1, some 0]).sum = 1 ∧
    (pitchHistogram 2 [some 0, none, some 1, some 0]).getLast? =
      some (((List.countP (fun w => w.isNone)
        ([some 0, none, some 1, some 0] : List (Option (Fin 2))) : ℕ) : ℚ) /
        ([some 0, none, some 1, some 0] : List (Option (Fin 2))).length) := by
  have h := pitch_histogram_mass 2 [some 0, none, some 1, some 0] (by decide)
  exact ⟨by decide, h.1, h.2⟩

/-! ## Song-search request assembly (frontend, `src/unnamed/part_001` and
`part_002`, `HummingSearch`) -/

/-- From `src/unnamed/part_001` (line 493) and `part_002` (line 692): the
values offered by the "Results:" select, `[1, 2, 3, 4, 5]`. -/
def resultOptions : List ℕ :=
  [1, 2, 3, 4, 5]

/-- The two pieces of `HummingSearch` component state that determine the
request fields `method` and `top_n`: the "Compare with AI Model" toggle
(`useAiModel`, initially `false`) and the "Results:" select
(`resultCount`, initially `5`). -/
structure HummingOptions where
  useAiModel : Bool
  resultCount : ℕ
deriving DecidableEq

/-- From `src/unnamed/part_001` (lines 139-140) / `part_002` (lines 12-13):
`useState(5)` and `useState(false)`. -/
def initOptions : HummingOptions :=
  { useAiModel := false, resultCount := 5 }

/-- The UI interactions that can change `HummingOptions`: clicking the AI
toggle, picking the `i`-th entry of the results select (the select's
`onChange` receives `parseInt` of one of the five rendered option values),
or any other interaction (which touches neither field). -/
inductive HummingEvent where
  | toggleAiModel
  | selectResultCount (i : Fin 5)
  | otherInteraction

/-- From `src/unnamed/part_001` (lines 491, 505) / `part_002` (lines 690,
707): `setUseAiModel(!useAiModel)` and
`setResultCount(parseInt(e.target.value))` over the rendered options. -/
def stepOptions (s : HummingOptions) : HummingEvent → HummingOptions
  | HummingEvent.toggleAiModel => { s with useAiModel := !s.useAiModel }
  | HummingEvent.selectResultCount i =>
      { s with resultCount := resultOptions.get ⟨i.val, i.isLt⟩ }
  | HummingEvent.otherInteraction => s

/-- The component state after a sequence of UI interactions. -/
def optionsAfter (events : List HummingEvent) : HummingOptions :=
  events.foldl stepOptions initOptions

/-- The fields `searchSong` submits to `/api/search/`. -/
structure SearchRequest where
  method : String
  top_n : ℕ
deriving DecidableEq

/-- From `src/unnamed/part_001` (lines 304-305) / `part_002` (lines 188-189):
`formData.append("method", useAiModel ? "both" : "dsp")` and
`formData.append("top_n", resultCount.toString())`. -/
def searchSongRequest (s : HummingOptions) : SearchRequest :=
  { method := if s.useAiModel then "both" else "dsp", top_n := s.resultCount }

lemma resultCount_mem (events : List HummingEvent) (s : HummingOptions)
    (hs : s.resultCount ∈ resultOptions) :
    (events.foldl stepOptions s).resultCount ∈ resultOptions := by
  induction events generalizing s with
  | nil => exact hs
  | cons e es ih =>
    apply ih
    cases e with
    | toggleAiModel => exact hs
    | selectResultCount i => exact List.get_mem _ _ _
    | otherInteraction => exact hs

/-- C9: after any sequence of UI interactions, the request `searchSong`
assembles has `method = "both"` exactly when the AI-comparison toggle is on
and `method = "dsp"` exactly when it is off — `"ai"` alone is never sent —
and its `top_n` is one of `{1, 2, 3, 4, 5}`. -/
theorem search_request_fields (events : List HummingEvent) :
    ((searchSongRequest (optionsAfter events)).method = "both" ↔
      (optionsAfter events).useAiModel = true) ∧
    ((searchSongRequest (optionsAfter events)).method = "dsp" ↔
      (optionsAfter events).useAiModel = false) ∧
    (searchSongRequest (optionsAfter events)).method ≠ "ai" ∧
    (searchSongRequest (optionsAfter events)).top_n ∈ resultOptions := by
  refine ⟨?_, ?_, ?_, ?_⟩
  · unfold searchSongRequest
    cases h : (optionsAfter events).useAiModel <;> simp [h]
  · unfold searchSongRequest
    cases h : (optionsAfter events).useAiModel <;> simp [h]
  · unfold searchSongRequest
    cases h : (optionsAfter events).useAiModel <;> simp [h]
  · exact resultCount_mem events initOptions (by decide)

/-! ## Recording minimum duration (frontend, `src/unnamed/part_001` and
`part_002`, `HummingSearch`) -/

/-- The recording-related `HummingSearch` component state: whether the
recorder is running, the elapsed seconds shown by the timer, and the
captured audio blob (abstracted as the elapsed recording seconds at the
moment the recorder stopped, `none` while no blob exists). -/
structure RecorderState where
  isRecording : Bool
  recordingTime : ℕ
  audioBlob : Option ℕ
deriving DecidableEq

/-- From `src/unnamed/part_001` (lines 133-134, 149) / `part_002`
(lines 6-7, 22): `useState(false)`, `useState(null)`, `useState(0)`. -/
def initRecorder : RecorderState :=
  { isRecording := false, recordingTime := 0, audioBlob := none }

/-- From `startRecording` (`part_001` lines 211-213, `part_002`
lines 84-86): start the recorder and reset the timer; the blob state is not
touched. -/
def startRecording (s : RecorderState) : RecorderState :=
  { s with isRecording := true, recordingTime := 0 }

/-- From the timer callback (`part_001` lines 216-219, `part_002`
lines 90-93): while recording, `recordingTime` is set to the elapsed whole
seconds since the recording started. -/
def timerTick (s : RecorderState) (elapsed : ℕ) : RecorderState :=
  if s.isRecording then { s with recordingTime := elapsed } else s

/-- From `stopRecording` (`part_001` lines 236-260, `part_002`
lines 110-142): a no-op unless the recorder is running; if the elapsed time
is under 10 seconds it alerts and returns with no state change; otherwise
it stops the recorder, and the `onstop` handler captures the blob. -/
def stopRecording (s : RecorderState) : RecorderState :=
  if s.isRecording then
    if s.recordingTime < 10 then s
    else { isRecording := false, recordingTime := s.recordingTime
           audioBlob := some s.recordingTime }
  else s

/-- From `setAudioBlob(null)` ("Record Again", `part_001` line 432;
double-click, `part_002` line 549). -/
def clearBlob (s : RecorderState) : RecorderState :=
  { s with audioBlob := none }

/-- From `resetSearch` (`part_001` lines 340-346, `part_002`
lines 215-221). -/
def resetSearch (s : RecorderState) : RecorderState :=
  { s with audioBlob := none, recordingTime := 0 }

/-- The recording-related interactions of the component. -/
inductive RecorderEvent where
  | start
  | tick (elapsed : ℕ)
  | stop
  | clear
  | reset

def stepRecorder (s : RecorderState) : RecorderEvent → RecorderState
  | RecorderEvent.start => startRecording s
  | RecorderEvent.tick elapsed => timerTick s elapsed
  | RecorderEvent.stop => stopRecording s
  | RecorderEvent.clear => clearBlob s
  | RecorderEvent.reset => resetSearch s

/-- The recorder state after a sequence of interactions. -/
def recorderAfter (events : List RecorderEvent) : RecorderState :=
  events.foldl stepRecorder initRecorder

lemma blob_min_duration (events : List RecorderEvent) (s : RecorderState)
    (hs : ∀ d, s.audioBlob = some d → 10 ≤ d) :
    ∀ d, (events.foldl stepRecorder s).audioBlob = some d → 10 ≤ d := by
  induction events generalizing s with
  | nil => exact hs
  | cons e es ih =>
    apply ih
    cases e with
    | start => exact hs
    | tick elapsed =>
      intro d hd
      simp only [stepRecorder, timerTick] at hd
      split_ifs at hd <;> exact hs d hd
    | stop =>
      intro d hd
      simp only [stepRecorder, stopRecording] at hd
      split_ifs at hd with h1 h2
      · exact hs d hd
      · simp only [Option.some.injEq] at hd
        omega
      · exact hs d hd
    | clear =>
      intro d hd
      simp [stepRecorder, clearBlob] at hd
    | reset =>
      intro d hd
      simp [stepRecorder, resetSearch] at hd

/-- C10: while recording with under 10 elapsed seconds, `stopRecording` is a
no-op — the recorder keeps running and no audio blob is produced — and
consequently every audio blob ever held by the component (hence every
recorded blob submitted to the search API) comes from a recording of at
least 10 seconds. -/
theorem min_recording_duration (s : RecorderState) (hrec : s.isRecording = true)
    (ht : s.recordingTime < 10) :
    stopRecording s = s ∧
    ∀ events d, (recorderAfter events).audioBlob = some d → 10 ≤ d := by
  constructor
  · unfold stopRecording
    rw [if_pos hrec, if_pos ht]
  · intro events d hd
    exact blob_min_duration events initRecorder (by intro d hd; simp [initRecorder] at hd) d hd

/-- Witness for C10: an early stop at 3 seconds is a no-op, and the blob of
a 12-second recording satisfies the 10-second bound. -/
theorem min_recording_duration_witness :
    stopRecording { isRecording := true, recordingTime := 3, audioBlob := none } =
      { isRecording := true, recordingTime := 3, audioBlob := none } ∧ 10 ≤ 12 := by
  have h := min_recording_duration
    { isRecording := true, recordingTime := 3, audioBlob := none } rfl (by decide)
  exact ⟨h.1,
    h.2 [RecorderEvent.start, RecorderEvent.tick 12, RecorderEvent.stop] 12 (by decide)⟩

end Humming
